import Mathlib

/-!
Verification of the heuristic extraction engine of the syllabus-sync
application (date normalizer, timeline cell parsers, deduplicator and
sanitizer).  The JavaScript sources are embedded shallowly: JavaScript
`Date` objects are modelled at calendar-day granularity (every date the
embedded fragment constructs is a local-midnight date), strings are Lean
strings, and the concrete regular expressions of the source are compiled
by hand into backtracking matchers over `List Char` that reproduce the
leftmost-match, greedy-with-backtracking semantics of JavaScript regexes.
-/

set_option maxRecDepth 4000

/-! ## A calendar-day model of the JavaScript `Date`

A JavaScript `Date` constructed by `new Date(year, month, day)` stores a
normalized calendar date: out-of-range month and day arguments roll over
into adjacent months and years.  `JSDate` stores the normalized triple
(`month` is 0-based as in JavaScript, `day` is 1-based), and `mkDate`
performs the rollover normalization.  Time-of-day components are not
modelled: every date built by the embedded code is a local-midnight date.
-/

structure JSDate where
  year : Int
  month : Int
  day : Int
  deriving DecidableEq, Repr

/-- Gregorian leap-year rule, as implemented by the JavaScript `Date`. -/
def isLeapYear (y : Int) : Bool :=
  (y % 4 == 0 && y % 100 != 0) || y % 400 == 0

/-- Length of 0-based month `m` of year `y` (only meaningful for `0 ≤ m ≤ 11`). -/
def monthLen (y : Int) (m : Int) : Int :=
  if m = 1 then (if isLeapYear y then 29 else 28)
  else if m = 3 ∨ m = 5 ∨ m = 8 ∨ m = 10 then 30
  else 31

/-- Day-of-month rollover normalization.  The fuel argument only bounds the
number of month steps; `dayFuel` below always supplies enough, so the
fuel-exhausted branch is unreachable. -/
def normDay : Nat → Int → Int → Int → JSDate
  | 0, y, m, d => ⟨y, m, d⟩
  | fuel + 1, y, m, d =>
    if d < 1 then
      (if m = 0 then normDay fuel (y - 1) 11 (d + monthLen (y - 1) 11)
       else normDay fuel y (m - 1) (d + monthLen y (m - 1)))
    else if d > monthLen y m then
      (if m = 11 then normDay fuel (y + 1) 0 (d - monthLen y 11)
       else normDay fuel y (m + 1) (d - monthLen y m))
    else ⟨y, m, d⟩

/-- Enough fuel for `normDay`: each step moves `d` at least 28 towards range. -/
def dayFuel (d : Int) : Nat :=
  (if d < 1 then (1 - d).toNat + 62 else d.toNat) + 1

/-- Model of `new Date(y, M, d)`: month overflow is folded into the year by
floor division (as in JavaScript), then the day is normalized. -/
def mkDate (y M d : Int) : JSDate :=
  normDay (dayFuel d) (y + M.fdiv 12) (M.emod 12) d

/-- Rata-die style day count of a calendar date; this is the model of the
millisecond timestamp (divided by 86,400,000) that JavaScript date
comparisons use, restricted to local-midnight dates. -/
def daysBeforeYear (y : Int) : Int :=
  365 * y + (y + 3).fdiv 4 - (y + 99).fdiv 100 + (y + 399).fdiv 400

/-- Days in year `y` before the start of 0-based month `m` (for `0 ≤ m ≤ 11`). -/
def daysBeforeMonth (y : Int) (m : Int) : Int :=
  (if m ≤ 0 then 0
   else if m = 1 then 31
   else if m = 2 then 59
   else if m = 3 then 90
   else if m = 4 then 120
   else if m = 5 then 151
   else if m = 6 then 181
   else if m = 7 then 212
   else if m = 8 then 243
   else if m = 9 then 273
   else if m = 10 then 304
   else 334)
  + (if 2 ≤ m ∧ isLeapYear y then 1 else 0)

def daysFromCivil (dt : JSDate) : Int :=
  daysBeforeYear dt.year + daysBeforeMonth dt.year dt.month + (dt.day - 1)

/-! ## JavaScript values flowing through the date utilities -/

/-- The values the date utilities receive: `null`/`undefined`, a valid
`Date` object, an `Invalid Date` object, a string, or a number (integer
spreadsheet serial; fractional serials are outside the modelled fragment). -/
inductive JSValue where
  | vNull
  | vDate (d : JSDate)
  | vInvalid
  | vStr (s : String)
  | vNum (n : Int)
  deriving DecidableEq, Repr

/-- Result of a date-producing JavaScript function: `null`, an
`Invalid Date` object, or a valid date. -/
inductive DateRes where
  | null
  | invalid
  | date (d : JSDate)
  deriving DecidableEq, Repr

/-- JavaScript falsiness of the modelled values (`null`, `""` and `0` are
falsy; any `Date` object, even an invalid one, is truthy). -/
def jsFalsy : JSValue → Bool
  | .vNull => true
  | .vStr s => s.data.isEmpty
  | .vNum n => n == 0
  | .vDate _ => false
  | .vInvalid => false

/-! ## Character-level string utilities

The concrete regular expressions of the source are hand-compiled into
backtracking matchers over `List Char`, reproducing JavaScript's
leftmost-match and greedy-with-backtracking semantics for exactly the
patterns the source uses. -/

def isDigitCh (c : Char) : Bool := '0' ≤ c && c ≤ '9'

def digitVal (c : Char) : Nat := c.toNat - 48

def digitCh (n : Nat) : Char := Char.ofNat (48 + n)

/-- The whitespace characters recognized by the regex class `\s` (ASCII part). -/
def isSpaceCh (c : Char) : Bool :=
  c == ' ' || c == '\t' || c == '\n' || c == '\r' ||
  c == Char.ofNat 11 || c == Char.ofNat 12

def toLowerCh (c : Char) : Char :=
  if 'A' ≤ c && c ≤ 'Z' then Char.ofNat (c.toNat + 32) else c

def lowerStr (cs : List Char) : List Char := cs.map toLowerCh

/-- Model of `String.prototype.trim`. -/
def jsTrim (cs : List Char) : List Char :=
  ((cs.dropWhile isSpaceCh).reverse.dropWhile isSpaceCh).reverse

/-- Digit characters of a positive natural number, most significant first.
The fuel argument only bounds recursion depth (`n < fuel` always holds at
the call sites). -/
def natCharsAux : Nat → Nat → List Char
  | 0, _ => []
  | _ + 1, 0 => []
  | fuel + 1, n + 1 =>
    natCharsAux fuel ((n + 1) / 10) ++ [digitCh ((n + 1) % 10)]

/-- Decimal digit characters of a natural number (model of JavaScript
number-to-string conversion for nonnegative integers). -/
def natChars (n : Nat) : List Char :=
  if n = 0 then ['0'] else natCharsAux (n + 1) n

/-- Model of JavaScript template-literal rendering of an integer. -/
def jsIntChars (n : Int) : List Char :=
  if n < 0 then '-' :: natChars (-n).toNat else natChars n.toNat

/-- Numeric value of a list of decimal digit characters (the value
`parseInt` gives to a matched all-digit capture group). -/
def parseDigits (cs : List Char) : Nat :=
  cs.foldl (fun a c => 10 * a + digitVal c) 0

/-- Try a pattern at every start position, leftmost first (the scan the
JavaScript regex engine performs for an unanchored pattern). -/
def scan1 {α : Type} (p : List Char → Option α) : List Char → Option α
  | [] => p []
  | c :: rest => (p (c :: rest)).orElse (fun _ => scan1 p rest)

/-- Greedy `\d{1,2}`: try two digits, then backtrack to one. -/
def d12 {α : Type} (cs : List Char) (k : Nat → List Char → Option α) : Option α :=
  match cs with
  | [] => none
  | c1 :: rest1 =>
    if isDigitCh c1 then
      match rest1 with
      | c2 :: rest2 =>
        if isDigitCh c2 then
          (k (10 * digitVal c1 + digitVal c2) rest2).orElse
            (fun _ => k (digitVal c1) rest1)
        else k (digitVal c1) rest1
      | [] => k (digitVal c1) []
    else none

/-- Consume exactly `n` digit characters. -/
def takeDigits : Nat → List Char → Option (List Char × List Char)
  | 0, cs => some ([], cs)
  | n + 1, [] => (fun _ => none) n
  | n + 1, c :: rest =>
    if isDigitCh c then (takeDigits n rest).map (fun p => (c :: p.1, p.2)) else none

/-- Greedy `\d{2,4}`: try four digits, then three, then two. -/
def d24 {α : Type} (cs : List Char) (k : Nat → List Char → Option α) : Option α :=
  ((takeDigits 4 cs).bind (fun p => k (parseDigits p.1) p.2)).orElse (fun _ =>
  ((takeDigits 3 cs).bind (fun p => k (parseDigits p.1) p.2)).orElse (fun _ =>
  (takeDigits 2 cs).bind (fun p => k (parseDigits p.1) p.2)))

/-- `\d{4}`. -/
def d4 {α : Type} (cs : List Char) (k : Nat → List Char → Option α) : Option α :=
  (takeDigits 4 cs).bind (fun p => k (parseDigits p.1) p.2)

/-- Match a literal character sequence. -/
def litMatch (lit : List Char) (cs : List Char) : Option (List Char) :=
  if lit.isPrefixOf cs then some (cs.drop lit.length) else none

/-- Greedy `\s+`. -/
def sp1 (cs : List Char) : Option (List Char) :=
  match cs with
  | c :: rest => if isSpaceCh c then some (rest.dropWhile isSpaceCh) else none
  | [] => none

/-- Substring test: model of `/lit/.test(haystack)` for a literal pattern. -/
def containsLit (cs : List Char) (lit : List Char) : Bool :=
  (scan1 (fun r => if lit.isPrefixOf r then some () else none) cs).isSome

/-- Case-insensitive substring test (`/lit/i.test(haystack)` with `lit` in
lower case). -/
def testCI (cs : List Char) (lit : List Char) : Bool :=
  containsLit (lowerStr cs) lit

/-- A separator accepted by the character class `[\/\-]`. -/
def isSepCh (c : Char) : Bool := c == '/' || c == '-'

/-- Pattern `(\d{1,2})[\/\-](\d{1,2})[\/\-](\d{2,4})` at one position
(the fallback pattern of `parseDate`). -/
def pMDYSep (cs : List Char) : Option (Nat × Nat × Nat) :=
  d12 cs (fun m r1 =>
    match r1 with
    | s1 :: r2 =>
      if isSepCh s1 then
        d12 r2 (fun d r3 =>
          match r3 with
          | s2 :: r4 =>
            if isSepCh s2 then d24 r4 (fun y _ => some (m, d, y)) else none
          | [] => none)
      else none
    | [] => none)

/-- Pattern `(\d{1,2})\/(\d{1,2})(?:\/(\d{2,4}))?` at one position. -/
def pMDoptY24 (cs : List Char) : Option (Nat × Nat × Option Nat) :=
  d12 cs (fun m r1 =>
    match r1 with
    | s1 :: r2 =>
      if s1 == '/' then
        d12 r2 (fun d r3 =>
          ((match r3 with
            | s2 :: r4 =>
              if s2 == '/' then d24 r4 (fun y _ => some (m, d, some y)) else none
            | [] => none)).orElse (fun _ => some (m, d, none)))
      else none
    | [] => none)

/-- Pattern `(\d{1,2})\/(\d{1,2})(?:\/(\d{4}))?` at one position. -/
def pMDoptY4 (cs : List Char) : Option (Nat × Nat × Option Nat) :=
  d12 cs (fun m r1 =>
    match r1 with
    | s1 :: r2 =>
      if s1 == '/' then
        d12 r2 (fun d r3 =>
          ((match r3 with
            | s2 :: r4 =>
              if s2 == '/' then d4 r4 (fun y _ => some (m, d, some y)) else none
            | [] => none)).orElse (fun _ => some (m, d, none)))
      else none
    | [] => none)

/-- Pattern `(\d{1,2})\/(\d{1,2})\/(\d{4})` at one position. -/
def pMDY4 (cs : List Char) : Option (Nat × Nat × Nat) :=
  d12 cs (fun m r1 =>
    match r1 with
    | s1 :: r2 =>
      if s1 == '/' then
        d12 r2 (fun d r3 =>
          match r3 with
          | s2 :: r4 =>
            if s2 == '/' then d4 r4 (fun y _ => some (m, d, y)) else none
          | [] => none)
      else none
    | [] => none)

/-- Pattern `due\s+by\s+(\d{1,2})\/(\d{1,2})(?:\/(\d{2,4}))?` at one
position (to be run on a lower-cased haystack, modelling the `i` flag). -/
def pDueBy (cs : List Char) : Option (Nat × Nat × Option Nat) :=
  (litMatch ['d', 'u', 'e'] cs).bind (fun r1 =>
  (sp1 r1).bind (fun r2 =>
  (litMatch ['b', 'y'] r2).bind (fun r3 =>
  (sp1 r3).bind (fun r4 =>
  pMDoptY24 r4))))

def findDueBy (cs : List Char) : Option (Nat × Nat × Option Nat) :=
  scan1 pDueBy (lowerStr cs)

def weekdayNames : List (List Char) :=
  [['m','o','n','d','a','y'], ['t','u','e','s','d','a','y'],
   ['w','e','d','n','e','s','d','a','y'], ['t','h','u','r','s','d','a','y'],
   ['f','r','i','d','a','y'], ['s','a','t','u','r','d','a','y'],
   ['s','u','n','d','a','y']]

/-- Pattern
`(?:monday|tuesday|wednesday|thursday|friday|saturday|sunday)\s+(\d{1,2})\/(\d{1,2})(?:\/(\d{4}))?`
at one position (lower-cased haystack models the `i` flag). -/
def pWeekdayDate (cs : List Char) : Option (Nat × Nat × Option Nat) :=
  (weekdayNames.foldr (fun w acc => (litMatch w cs).orElse (fun _ => acc)) none).bind
    (fun r1 => (sp1 r1).bind (fun r2 => pMDoptY4 r2))

/-! ## The Date Normalizer (src/components/DateUtils.js) -/

/-- The two-digit-year windowing rule used throughout the source:
values below 100 map to 2000+y when below 50, else to 1900+y. -/
def twoDigitFix (y : Int) : Int :=
  if y < 100 then (if y < 50 then 2000 + y else 1900 + y) else y

/-- Core of the host engine's generic `new Date(string)` parser on an
already-trimmed character list: a full-string numeric triple
`M sep D sep Y` with `/` or `-` separators, two-digit years windowed at
50, and the month/day validated against the calendar.

Modelled from the host runtime (V8-class engines), which the repository
relies on for its "direct parsing for standard format" step: such engines
parse slash- or dash-separated numeric `M/D/Y` strings in the legacy
`Date` constructor.  Other host-parseable shapes (month names, ISO strings
with `-`T`-` time parts, two-component `M/D` strings) are not used by any
claim and are modelled as unparseable. -/
def jsDateStrCore (cs : List Char) : Option JSDate :=
  let d1 := cs.takeWhile isDigitCh
  let r1 := cs.dropWhile isDigitCh
  if d1.isEmpty then none else
  match r1 with
  | [] => none
  | s1 :: r2 =>
    if isSepCh s1 then
      let d2 := r2.takeWhile isDigitCh
      let r3 := r2.dropWhile isDigitCh
      if d2.isEmpty then none else
      match r3 with
      | [] => none
      | s2 :: r4 =>
        if isSepCh s2 then
          let d3 := r4.takeWhile isDigitCh
          let r5 := r4.dropWhile isDigitCh
          if d3.isEmpty then none
          else if !r5.isEmpty then none
          else
            let m : Int := parseDigits d1
            let d : Int := parseDigits d2
            let y : Int := twoDigitFix (parseDigits d3)
            if 1 ≤ m && m ≤ 12 && 1 ≤ d && d ≤ monthLen y (m - 1) then
              some ⟨y, m - 1, d⟩
            else none
        else none
    else none

/-- Model of `new Date(dateString)` on the trimmed string. -/
def jsNewDateString (s : String) : Option JSDate :=
  jsDateStrCore (jsTrim s.data)

/-- Shallow embedding of `parseDate` (src/components/DateUtils.js lines
1-71).  `currentYear` is the context-year parameter, whose JavaScript
default is the current system year. -/
def parseDate (dateValue : JSValue) (currentYear : Int) : DateRes :=
  if jsFalsy dateValue then .null
  else match dateValue with
  | .vNull => .null
  | .vDate d => .date d
  | .vInvalid => .invalid
  | .vNum n => .date (mkDate 1899 11 (30 + n))
  | .vStr s =>
    let cs := jsTrim s.data
    match jsNewDateString s with
    | some pd =>
      if (pd.year - currentYear).natAbs > 5 then
        .date (mkDate currentYear pd.month pd.day)
      else .date pd
    | none =>
      match scan1 pMDYSep cs with
      | some (m, d, yr) => .date (mkDate (twoDigitFix yr) ((m : Int) - 1) d)
      | none =>
        match findDueBy cs with
        | some (m, d, yrOpt) =>
          let y0 : Int := match yrOpt with | some yv => (yv : Int) | none => currentYear
          .date (mkDate (twoDigitFix y0) ((m : Int) - 1) d)
        | none => .null

/-- Rendering `${month+1}/${day}/${year}` of a date object. -/
def fmtTriple (d : JSDate) : String :=
  ⟨jsIntChars (d.month + 1) ++ '/' :: (jsIntChars d.day ++ '/' :: jsIntChars d.year)⟩

/-- Anchored test `/^\d{1,2}\/\d{1,2}\/\d{4}$/`. -/
def matchesCanonical (cs : List Char) : Bool :=
  (d12 cs (fun _ r1 =>
    match r1 with
    | s1 :: r2 =>
      if s1 == '/' then
        d12 r2 (fun _ r3 =>
          match r3 with
          | s2 :: r4 =>
            if s2 == '/' then
              d4 r4 (fun _ r5 => if r5.isEmpty then some () else none)
            else none
          | [] => none)
      else none
    | [] => none)).isSome

/-- Embed a `DateRes` back into a `JSValue` (the value `parseDate` hands
to a caller). -/
def resToValue : DateRes → JSValue
  | .null => .vNull
  | .invalid => .vInvalid
  | .date d => .vDate d

/-- Shallow embedding of `formatDate` (src/components/DateUtils.js lines
73-88). -/
def formatDate (v : JSValue) (currentYear : Int) : String :=
  if jsFalsy v then ""
  else match v with
  | .vNull => ""
  | .vInvalid => ""
  | .vDate d => fmtTriple d
  | .vStr s =>
    if matchesCanonical s.data then s
    else match parseDate (.vStr s) currentYear with
      | .date d => fmtTriple d
      | _ => ""
  | .vNum n =>
    match parseDate (.vNum n) currentYear with
    | .date d => fmtTriple d
    | _ => ""

/-- Shallow embedding of `isDateInPast` (src/components/DateUtils.js lines
91-110).  The ambient clock (`new Date()` with hours zeroed) is modelled
by the explicit `today` parameter; the implicit context year of the inner
`parseDate` call is today's year. -/
def isDateInPast (v : JSValue) (today : JSDate) : Bool :=
  if jsFalsy v then false
  else match parseDate v today.year with
  | .null => false
  | .invalid => false
  | .date d =>
    if d.day == today.day && d.month == today.month && d.year == today.year then false
    else decide (daysFromCivil d < daysFromCivil today)

/-! ## Timeline cell parsers (src/components/TimelineParser.js)

The file ships two revisions of each cell parser; both are embedded.
`rowDate` is `null` or a date; `sheetYear` is the per-sheet context year. -/

/-- Date built from a month/day/optional-year capture with the source's
year defaulting (`sheetYear` when the group is absent) and two-digit
windowing. -/
def matchDate (t : Nat × Nat × Option Nat) (sheetYear : Int) : JSDate :=
  let y0 : Int := match t.2.2 with | some yv => (yv : Int) | none => sheetYear
  mkDate (twoDigitFix y0) ((t.1 : Int) - 1) t.2.1

/-- The `due by` extraction shared by the homework parsers: on a match,
the year defaults to `sheetYear`, then the two-digit window applies. -/
def dueByDate (cellText : String) (sheetYear : Int) : Option JSDate :=
  (findDueBy cellText.data).map (fun t => matchDate t sheetYear)

/-- Shallow embedding of `parseHomeworkDueDate`, first revision
(src/components/TimelineParser.js lines 369-397): explicit `due by` date,
else row date plus 14 days. -/
def parseHomeworkDueDate_v1 (cellText : String) (rowDate : Option JSDate)
    (sheetYear : Int) : Option JSDate :=
  if cellText.data.isEmpty then none
  else match dueByDate cellText sheetYear with
  | some e => some e
  | none =>
    match rowDate with
    | some rd => some (mkDate rd.year rd.month (rd.day + 14))
    | none => none

/-- Shallow embedding of `parseHomeworkDueDate`, second revision
(src/components/TimelineParser.js lines 928-978): explicit `due by` date,
else the first embedded `M/D[/Y]` date, else the current date when the
row date is not in the future, else row date plus 7 days.  `today` models
the ambient `new Date()`. -/
def parseHomeworkDueDate_v2 (cellText : String) (rowDate : Option JSDate)
    (sheetYear : Int) (today : JSDate) : Option JSDate :=
  if cellText.data.isEmpty then none
  else match dueByDate cellText sheetYear with
  | some e => some e
  | none =>
    match scan1 pMDoptY24 cellText.data with
    | some t => some (matchDate t sheetYear)
    | none =>
      match rowDate with
      | some rd =>
        if daysFromCivil rd ≤ daysFromCivil today then some today
        else some (mkDate rd.year rd.month (rd.day + 7))
      | none => none

structure ExamRes where
  date : JSDate
  type : String
  deriving DecidableEq, Repr

/-- The explicit-date extraction of `parseExamDate`: first
`(\d{1,2})\/(\d{1,2})(?:\/(\d{4}))?` match in the cell. -/
def examExplicitDate (cellText : String) (sheetYear : Int) : Option JSDate :=
  (scan1 pMDoptY4 cellText.data).map (fun t => matchDate t sheetYear)

/-- Shallow embedding of `parseExamDate` (src/components/TimelineParser.js
lines 402-447; the revision at lines 983-1028 is textually identical). -/
def parseExamDate (cellText : String) (rowDate : Option JSDate)
    (sheetYear : Int) : Option ExamRes :=
  if cellText.data.isEmpty then none
  else
  let cs := cellText.data
  if (testCI cs ['r','e','v','i','e','w'] || testCI cs ['b','u','f','f','e','r'] ||
      testCI cs ['o','p','e','n','s']) &&
     !(testCI cs ['d','u','e'] || testCI cs ['c','l','o','s','e','s']) then none
  else
    let examType : Option String :=
      if testCI cs ['m','i','d','t','e','r','m'] then some "Midterm Exam"
      else if testCI cs ['f','i','n','a','l'] then some "Final Exam"
      else if testCI cs ['e','x','a','m'] then some "Exam"
      else none
    match examType with
    | none => none
    | some ty =>
      match examExplicitDate cellText sheetYear with
      | some e => some ⟨e, ty⟩
      | none =>
        match rowDate with
        | some rd => some ⟨rd, ty⟩
        | none => none

/-- Shallow embedding of `parseProjectDueDate`, first revision
(src/components/TimelineParser.js lines 452-493). -/
def parseProjectDueDate_v1 (cellText : String) (rowDate : Option JSDate)
    (sheetYear : Int) : Option JSDate :=
  if cellText.data.isEmpty then none
  else
  let cs := cellText.data
  if !(testCI cs ['p','r','o','j','e','c','t']) then none
  else match scan1 pMDY4 cs with
  | some t => some (mkDate (t.2.2 : Int) ((t.1 : Int) - 1) t.2.1)
  | none =>
    match scan1 pWeekdayDate (lowerStr cs) with
    | some t => some (matchDate t sheetYear)
    | none =>
      if testCI cs ['d','u','e'] then
        match rowDate with
        | some rd => some (mkDate rd.year rd.month (rd.day + 21))
        | none => none
      else none

/-- Shallow embedding of `parseProjectDueDate`, second revision
(src/components/TimelineParser.js lines 1033-1080).  Its first strategy
matches `(\d{1,2})\/(\d{1,2})(?:\/(\d{2,4}))?`; when the optional year
group matched, the source computes
`parseInt(parseFilePath(dateMatch[3]))`, and `parseFilePath` (lines
870-890) returns an object, so `parseInt` yields `NaN` and
`new Date(NaN, m-1, d)` is an `Invalid Date`. -/
def parseProjectDueDate_v2 (cellText : String) (rowDate : Option JSDate)
    (sheetYear : Int) : DateRes :=
  if cellText.data.isEmpty then .null
  else
  let cs := cellText.data
  if !(testCI cs ['p','r','o','j','e','c','t']) then .null
  else match scan1 pMDoptY24 cs with
  | some t =>
    match t.2.2 with
    | some _ => .invalid
    | none => .date (mkDate sheetYear ((t.1 : Int) - 1) t.2.1)
  | none =>
    match scan1 pWeekdayDate (lowerStr cs) with
    | some t => .date (matchDate t sheetYear)
    | none =>
      if testCI cs ['d','u','e'] && rowDate.isSome then
        match rowDate with
        | some rd => .date (mkDate rd.year rd.month (rd.day + 21))
        | none => .null
      else
        match rowDate with
        | some rd => .date rd
        | none => .null

/-! ## Deduplicator and Sanitizer (src/components/SyllabusSyncApp.js) -/

/-- A candidate record as the finalization pipeline sees it: the three
identity fields, the non-identity payload (`description`, `type`), whether
the value is an object at all, and the truthiness of the three
workbook-shape fields the defensive filters test. -/
structure JSItem where
  isObj : Bool
  title : String
  dueDate : String
  course : String
  description : String
  type : String
  hasSheetNames : Bool
  hasSheets : Bool
  hasWorkbook : Bool
  deriving DecidableEq, Repr

/-- The deduplication key: the template literal
`${title}-${dueDate}-${course}` (lines 1017 and 1714). -/
def dedupKey (a : JSItem) : String :=
  a.title ++ "-" ++ a.dueDate ++ "-" ++ a.course

/-- Shallow embedding of `removeDuplicateAssignments`
(src/components/SyllabusSyncApp.js lines 1012-1025; the copy at
src/components/TimelineParser.js lines 1709-1722 is identical), with the
`seen` set as a list of keys. -/
def removeDupAux (seen : List String) : List JSItem → List JSItem
  | [] => []
  | a :: rest =>
    if seen.contains (dedupKey a) then removeDupAux seen rest
    else a :: removeDupAux (dedupKey a :: seen) rest

def removeDuplicateAssignments (l : List JSItem) : List JSItem :=
  removeDupAux [] l

/-- Numeric value of `new Date(item.dueDate)` used by the sort comparator
(`none` models `NaN`). -/
def dueVal (a : JSItem) : Option Int :=
  (jsNewDateString a.dueDate).map daysFromCivil

/-- The sort comparator `(a, b) => new Date(a.dueDate) - new Date(b.dueDate)`;
a `NaN` comparator result is treated as 0 by the sort, per the
ECMAScript SortCompare step. -/
def cmpDue (a b : JSItem) : Int :=
  match dueVal a, dueVal b with
  | some x, some y => x - y
  | _, _ => 0

def leDue (a b : JSItem) : Bool := cmpDue a b ≤ 0

/-- Stable insertion step of the modelled `Array.prototype.sort` (the
ECMAScript sort is stable; stable insertion sort realizes it). -/
def insertLe (a : JSItem) : List JSItem → List JSItem
  | [] => [a]
  | b :: t => if leDue b a then b :: insertLe a t else a :: b :: t

def sortByDue (l : List JSItem) : List JSItem :=
  l.foldl (fun acc a => insertLe a acc) []

/-- The inline filter of `processFiles` (lines 982-990): drop non-objects
and anything exposing a workbook-shaped field.  (This filter does NOT
check `title`/`dueDate`.) -/
def cleanFilter (a : JSItem) : Bool :=
  a.isObj && !(a.hasSheetNames || a.hasSheets || a.hasWorkbook)

/-- The finalization step named by the spec: deduplicate, then sort
ascending by parsed due date (lines 994-998). -/
def finalize (l : List JSItem) : List JSItem :=
  sortByDue (removeDuplicateAssignments l)

/-- The full tail of `processFiles` (lines 980-1001): defensive clean,
deduplicate, sort.  `safeSetExtractedData` re-runs the same workbook
filter, which is idempotent on this output. -/
def processFilesTail (l : List JSItem) : List JSItem :=
  sortByDue (removeDuplicateAssignments (l.filter cleanFilter))

/-- Shallow embedding of `validateAssignments`
(src/components/SyllabusSyncApp.js lines 16-46).  Defined in the source
but never invoked by the processing pipeline. -/
def validateAssignments (l : List JSItem) : List JSItem :=
  l.filter (fun a =>
    a.isObj && !(a.hasSheetNames || a.hasSheets || a.hasWorkbook) &&
    !a.title.data.isEmpty && !a.dueDate.data.isEmpty)

/-- Canonical `M/D/YYYY` rendering of a date triple (no zero padding),
exactly the string shape the round-trip property quantifies over. -/
def renderMDY (m d y : Int) : String :=
  ⟨jsIntChars m ++ '/' :: (jsIntChars d ++ '/' :: jsIntChars y)⟩

/-- Two records whose (title, dueDate, course) tuples differ but whose
hyphen-joined dedup keys coincide. -/
def collideA : JSItem := ⟨true, "a-b", "c", "x", "", "", false, false, false⟩

def collideB : JSItem := ⟨true, "a", "b-c", "x", "", "", false, false, false⟩

/-- A candidate record with empty title and dueDate and no workbook-shaped
field: the pipeline's defensive filter lets it through. -/
def emptyTitleRec : JSItem := ⟨true, "", "", "X", "", "", false, false, false⟩

/-! ## Helper lemmas: characters, digit strings, trimming -/

theorem dropWhile_eq_self_of {p : Char → Bool} :
    ∀ l : List Char, (∀ c ∈ l, p c = false) → l.dropWhile p = l
  | [], _ => rfl
  | c :: t, h => by
    rw [List.dropWhile_cons, h c (List.mem_cons_self c t)]
    simp

theorem jsTrim_eq_self {cs : List Char} (h : ∀ c ∈ cs, isSpaceCh c = false) :
    jsTrim cs = cs := by
  unfold jsTrim
  rw [dropWhile_eq_self_of cs h,
    dropWhile_eq_self_of cs.reverse (fun c hc => h c (List.mem_reverse.mp hc)),
    List.reverse_reverse]

theorem takeWhile_split {p : Char → Bool} :
    ∀ (xs ys : List Char), (∀ c ∈ xs, p c = true) →
      (ys = [] ∨ ∃ z t, ys = z :: t ∧ p z = false) →
      (xs ++ ys).takeWhile p = xs ∧ (xs ++ ys).dropWhile p = ys
  | [], ys, _, hy => by
    rcases hy with rfl | ⟨z, t, rfl, hz⟩
    · exact ⟨rfl, rfl⟩
    · constructor <;> simp [List.takeWhile_cons, List.dropWhile_cons, hz]
  | x :: xs, ys, hx, hy => by
    have ih := takeWhile_split xs ys (fun c hc => hx c (List.mem_cons_of_mem x hc)) hy
    have hxx := hx x (List.mem_cons_self x xs)
    constructor <;>
      simp [List.takeWhile_cons, List.dropWhile_cons, hxx, ih.1, ih.2]

theorem isEmpty_false_of_ne_nil {l : List Char} (h : l ≠ []) : l.isEmpty = false := by
  cases l with
  | nil => exact absurd rfl h
  | cons c t => rfl

theorem digitCh_props {d : Nat} (h : d < 10) :
    isDigitCh (digitCh d) = true ∧ isSpaceCh (digitCh d) = false ∧
    isSepCh (digitCh d) = false ∧ digitVal (digitCh d) = d := by
  interval_cases d <;> exact ⟨by decide, by decide, by decide, by decide⟩

theorem natCharsAux_mem : ∀ (fuel n : Nat) (c : Char), c ∈ natCharsAux fuel n →
    ∃ d, d < 10 ∧ c = digitCh d
  | 0, _, _, hc => absurd hc (by simp [natCharsAux])
  | _ + 1, 0, _, hc => absurd hc (by simp [natCharsAux])
  | fuel + 1, n + 1, c, hc => by
    unfold natCharsAux at hc
    rcases List.mem_append.mp hc with h | h
    · exact natCharsAux_mem fuel ((n + 1) / 10) c h
    · exact ⟨(n + 1) % 10, by omega, by simpa using h⟩

theorem natChars_mem {n : Nat} {c : Char} (hc : c ∈ natChars n) :
    ∃ d, d < 10 ∧ c = digitCh d := by
  unfold natChars at hc
  by_cases h0 : n = 0
  · simp [h0] at hc
    exact ⟨0, by omega, by rw [hc]; rfl⟩
  · rw [if_neg h0] at hc
    exact natCharsAux_mem (n + 1) n c hc

theorem natChars_digit {n : Nat} : ∀ c ∈ natChars n, isDigitCh c = true := by
  intro c hc
  obtain ⟨d, hd, rfl⟩ := natChars_mem hc
  exact (digitCh_props hd).1

theorem natChars_not_space {n : Nat} : ∀ c ∈ natChars n, isSpaceCh c = false := by
  intro c hc
  obtain ⟨d, hd, rfl⟩ := natChars_mem hc
  exact (digitCh_props hd).2.1

theorem parseDigits_append_one (xs : List Char) (c : Char) :
    parseDigits (xs ++ [c]) = 10 * parseDigits xs + digitVal c := by
  unfold parseDigits
  rw [List.foldl_append]
  rfl

theorem parseDigits_natCharsAux : ∀ (fuel n : Nat), n < fuel →
    parseDigits (natCharsAux fuel n) = n
  | 0, _, h => absurd h (by omega)
  | _ + 1, 0, _ => rfl
  | fuel + 1, n + 1, h => by
    unfold natCharsAux
    rw [parseDigits_append_one,
      parseDigits_natCharsAux fuel ((n + 1) / 10) (by omega),
      (digitCh_props (show (n + 1) % 10 < 10 by omega)).2.2.2]
    omega

theorem parseDigits_natChars (n : Nat) : parseDigits (natChars n) = n := by
  unfold natChars
  by_cases h0 : n = 0
  · subst h0; decide
  · rw [if_neg h0]
    exact parseDigits_natCharsAux (n + 1) n (by omega)

theorem natChars_ne_nil (n : Nat) : natChars n ≠ [] := by
  unfold natChars
  by_cases h0 : n = 0
  · simp [h0]
  · rw [if_neg h0]
    have hn : 0 < n := by omega
    cases n with
    | zero => omega
    | succ k =>
      unfold natCharsAux
      simp

theorem jsIntChars_nonneg {n : Int} (h : 0 ≤ n) : jsIntChars n = natChars n.toNat := by
  unfold jsIntChars
  rw [if_neg (by omega)]

/-! ## Helper lemmas: the direct string parse on canonical renderings -/

theorem twoDigitFix_big {y : Int} (h : 100 ≤ y) : twoDigitFix y = y := by
  unfold twoDigitFix
  rw [if_neg (by omega)]

theorem jsDateStrCore_render {m d y : Int} (hm1 : 1 ≤ m) (hm : m ≤ 12)
    (hd1 : 1 ≤ d) (hd : d ≤ monthLen y (m - 1)) (hy : 1000 ≤ y) :
    jsDateStrCore (jsIntChars m ++ '/' :: (jsIntChars d ++ '/' :: jsIntChars y))
      = some ⟨y, m - 1, d⟩ := by
  rw [jsIntChars_nonneg (by omega : (0:Int) ≤ m),
    jsIntChars_nonneg (by omega : (0:Int) ≤ d),
    jsIntChars_nonneg (by omega : (0:Int) ≤ y)]
  have h1 := takeWhile_split (p := isDigitCh) (natChars m.toNat)
    ('/' :: (natChars d.toNat ++ '/' :: natChars y.toNat))
    natChars_digit (Or.inr ⟨_, _, rfl, by decide⟩)
  have h2 := takeWhile_split (p := isDigitCh) (natChars d.toNat)
    ('/' :: natChars y.toNat) natChars_digit (Or.inr ⟨_, _, rfl, by decide⟩)
  have h3 := takeWhile_split (p := isDigitCh) (natChars y.toNat) []
    natChars_digit (Or.inl rfl)
  have e3 : natChars y.toNat ++ ([] : List Char) = natChars y.toNat := by simp
  simp only [jsDateStrCore, h1.1, h1.2]
  rw [isEmpty_false_of_ne_nil (natChars_ne_nil _)]
  simp only [Bool.false_eq_true, if_false, isSepCh, Char.reduceBEq, Bool.or_self,
    Bool.true_or, if_true]
  simp only [h2.1, h2.2]
  rw [isEmpty_false_of_ne_nil (natChars_ne_nil _)]
  simp only [Bool.false_eq_true, if_false, Bool.true_or, if_true]
  rw [e3] at h3
  simp only [h3.1, h3.2]
  rw [isEmpty_false_of_ne_nil (natChars_ne_nil _)]
  simp only [Bool.false_eq_true, if_false, List.isEmpty_nil, Bool.not_false, if_true,
    parseDigits_natChars,
    Int.toNat_of_nonneg (by omega : (0:Int) ≤ m),
    Int.toNat_of_nonneg (by omega : (0:Int) ≤ d),
    Int.toNat_of_nonneg (by omega : (0:Int) ≤ y),
    twoDigitFix_big (by omega : (100:Int) ≤ y)]
  have hcond : (decide (1 ≤ m) && decide (m ≤ 12) && decide (1 ≤ d) &&
      decide (d ≤ monthLen y (m - 1))) = true := by
    simp [hm1, hm, hd1, hd]
  rw [if_neg (show ¬((!true) = true) by simp), if_pos hcond]
  simp

theorem mkDate_valid {y m d : Int} (hm0 : 0 ≤ m) (hm : m ≤ 11)
    (hd1 : 1 ≤ d) (hd : d ≤ monthLen y m) : mkDate y m d = ⟨y, m, d⟩ := by
  unfold mkDate
  have hf : m.fdiv 12 = 0 := by
    rw [Int.fdiv_eq_ediv _ (by omega)]
    omega
  have he : m.emod 12 = m := by
    have hmm : m % 12 = m := by omega
    exact hmm
  have hfu : dayFuel d = d.toNat + 1 := by
    unfold dayFuel
    rw [if_neg (by omega)]
  rw [hf, he, Int.add_zero, hfu]
  show normDay (d.toNat + 1) y m d = ⟨y, m, d⟩
  unfold normDay
  rw [if_neg (show ¬(d < 1) by omega), if_neg (show ¬(d > monthLen y m) by omega)]

theorem render_not_space {m d y : Int} (hm : 0 ≤ m) (hd : 0 ≤ d) (hy : 0 ≤ y) :
    ∀ c ∈ jsIntChars m ++ '/' :: (jsIntChars d ++ '/' :: jsIntChars y),
      isSpaceCh c = false := by
  intro c hc
  rw [jsIntChars_nonneg hm, jsIntChars_nonneg hd, jsIntChars_nonneg hy] at hc
  simp only [List.mem_append, List.mem_cons] at hc
  rcases hc with h | h | h | h | h
  · exact natChars_not_space _ h
  · rw [h]; decide
  · exact natChars_not_space _ h
  · rw [h]; decide
  · exact natChars_not_space _ h

theorem jsNewDateString_render {m d y : Int} (hm1 : 1 ≤ m) (hm : m ≤ 12)
    (hd1 : 1 ≤ d) (hd : d ≤ monthLen y (m - 1)) (hy : 1000 ≤ y) :
    jsNewDateString (renderMDY m d y) = some ⟨y, m - 1, d⟩ := by
  unfold jsNewDateString renderMDY
  rw [show (String.mk (jsIntChars m ++ '/' :: (jsIntChars d ++ '/' :: jsIntChars y))).data
      = jsIntChars m ++ '/' :: (jsIntChars d ++ '/' :: jsIntChars y) from rfl]
  rw [jsTrim_eq_self (render_not_space (by omega) (by omega) (by omega))]
  exact jsDateStrCore_render hm1 hm hd1 hd hy

theorem render_data_ne_nil (m d y : Int) :
    (renderMDY m d y).data ≠ [] := by
  unfold renderMDY jsIntChars
  by_cases h : m < 0 <;> simp [h, natChars_ne_nil]

theorem parseDate_render {m d y ctx : Int} (hm1 : 1 ≤ m) (hm : m ≤ 12)
    (hd1 : 1 ≤ d) (hd : d ≤ monthLen y (m - 1)) (hy : 1000 ≤ y)
    (hctx : (y - ctx).natAbs ≤ 5) :
    parseDate (.vStr (renderMDY m d y)) ctx = .date ⟨y, m - 1, d⟩ := by
  unfold parseDate
  rw [if_neg (show ¬(jsFalsy (.vStr (renderMDY m d y)) = true) by
    simp [jsFalsy, isEmpty_false_of_ne_nil (render_data_ne_nil m d y)])]
  simp only [jsNewDateString_render hm1 hm hd1 hd hy]
  rw [if_neg (show ¬(((⟨y, m - 1, d⟩ : JSDate).year - ctx).natAbs > 5) from by
    show ¬((y - ctx).natAbs > 5)
    omega)]

/-! ## Helper lemmas: deduplication -/

theorem removeDupAux_sublist : ∀ (seen : List String) (l : List JSItem),
    (removeDupAux seen l).Sublist l
  | _, [] => List.Sublist.refl []
  | seen, a :: rest => by
    unfold removeDupAux
    by_cases h : seen.contains (dedupKey a) = true
    · rw [if_pos h]
      exact (removeDupAux_sublist seen rest).cons a
    · rw [if_neg h]
      exact (removeDupAux_sublist (dedupKey a :: seen) rest).cons₂ a

theorem removeDupAux_keys (l : List JSItem) : ∀ seen : List String,
    ((removeDupAux seen l).map dedupKey).Nodup ∧
    ∀ b ∈ removeDupAux seen l, seen.contains (dedupKey b) = false := by
  induction l with
  | nil => intro seen; simp [removeDupAux]
  | cons a rest ih =>
    intro seen
    unfold removeDupAux
    by_cases h : seen.contains (dedupKey a) = true
    · rw [if_pos h]
      exact ih seen
    · rw [if_neg h]
      obtain ⟨hnd, hdisj⟩ := ih (dedupKey a :: seen)
      refine ⟨?_, ?_⟩
      · simp only [List.map_cons, List.nodup_cons]
        refine ⟨?_, hnd⟩
        intro hmem
        obtain ⟨b, hb, hkb⟩ := List.mem_map.mp hmem
        have hdb := hdisj b hb
        rw [List.contains_cons, hkb] at hdb
        simp at hdb
      · intro b hb
        rcases List.mem_cons.mp hb with rfl | hb2
        · exact Bool.not_eq_true _ ▸ (by simpa using h)
        · have hdb := hdisj b hb2
          rw [List.contains_cons] at hdb
          exact (Bool.or_eq_false_iff.mp hdb).2

theorem removeDupAux_find (k : String) : ∀ (l : List JSItem) (seen : List String),
    seen.contains k = false →
    (removeDupAux seen l).find? (fun b => dedupKey b == k)
      = l.find? (fun b => dedupKey b == k)
  | [], _, _ => rfl
  | a :: rest, seen, hk => by
    unfold removeDupAux
    by_cases hka : dedupKey a = k
    · have hcs : seen.contains (dedupKey a) = false := hka ▸ hk
      rw [if_neg (show ¬(seen.contains (dedupKey a) = true) by rw [hcs]; simp)]
      rw [List.find?_cons_of_pos _ (by simp [hka]),
        List.find?_cons_of_pos _ (by simp [hka])]
    · by_cases h : seen.contains (dedupKey a) = true
      · rw [if_pos h]
        rw [removeDupAux_find k rest seen hk,
          List.find?_cons_of_neg _ (by simp [hka])]
      · rw [if_neg h]
        rw [List.find?_cons_of_neg _ (by simp [hka]),
          List.find?_cons_of_neg _ (by simp [hka])]
        refine removeDupAux_find k rest (dedupKey a :: seen) ?_
        rw [List.contains_cons]
        simp only [Bool.or_eq_false_iff]
        exact ⟨by simp [Ne.symm hka], hk⟩

theorem removeDupAux_id : ∀ (l : List JSItem) (seen : List String),
    (l.map dedupKey).Nodup →
    (∀ b ∈ l, seen.contains (dedupKey b) = false) →
    removeDupAux seen l = l
  | [], _, _, _ => rfl
  | a :: rest, seen, hnd, hdisj => by
    unfold removeDupAux
    rw [if_neg (show ¬(seen.contains (dedupKey a) = true) by
      rw [hdisj a (List.mem_cons_self a rest)]; simp)]
    congr 1
    have hnd2 : dedupKey a ∉ rest.map dedupKey ∧ (rest.map dedupKey).Nodup := by
      rw [List.map_cons, List.nodup_cons] at hnd
      exact hnd
    refine removeDupAux_id rest (dedupKey a :: seen) hnd2.2 ?_
    intro b hb
    rw [List.contains_cons]
    simp only [Bool.or_eq_false_iff]
    constructor
    · have : dedupKey b ≠ dedupKey a := by
        intro he
        exact hnd2.1 (he ▸ List.mem_map_of_mem dedupKey hb)
      simp [this]
    · exact hdisj b (List.mem_cons_of_mem a hb)

/-! ## Helper lemmas: the modelled stable sort -/

theorem leDue_total (a b : JSItem) : leDue a b = true ∨ leDue b a = true := by
  unfold leDue cmpDue
  cases dueVal a <;> cases dueVal b <;> simp
  omega

theorem leDue_carry {a b c : JSItem} (h1 : leDue b c = true)
    (h2 : leDue b a = false) : leDue a c = true := by
  unfold leDue cmpDue at *
  cases ha : dueVal a <;> cases hb : dueVal b <;> cases hc : dueVal c <;>
    rw [ha, hb] at h2 <;> rw [hb, hc] at h1 <;> (simp at *; try omega)

theorem insertLe_perm (a : JSItem) : ∀ l : List JSItem, (insertLe a l).Perm (a :: l)
  | [] => List.Perm.refl [a]
  | b :: t => by
    unfold insertLe
    by_cases h : leDue b a = true
    · rw [if_pos h]
      exact ((insertLe_perm a t).cons b).trans (List.Perm.swap a b t)
    · rw [if_neg h]

theorem sortFold_perm : ∀ (l acc : List JSItem),
    (l.foldl (fun acc a => insertLe a acc) acc).Perm (acc ++ l)
  | [], acc => by simp
  | x :: t, acc => by
    rw [List.foldl_cons]
    refine (sortFold_perm t (insertLe x acc)).trans ?_
    refine (((insertLe_perm x acc).append_right t).trans ?_)
    exact List.perm_middle.symm

theorem sortByDue_perm (l : List JSItem) : (sortByDue l).Perm l := by
  simpa using sortFold_perm l []

theorem insertLe_pairwise {a : JSItem} : ∀ {l : List JSItem},
    l.Pairwise (fun x y => leDue x y = true) →
    (insertLe a l).Pairwise (fun x y => leDue x y = true)
  | [], _ => by simp [insertLe]
  | b :: t, h => by
    obtain ⟨hb, ht⟩ := List.pairwise_cons.mp h
    unfold insertLe
    by_cases hba : leDue b a = true
    · rw [if_pos hba]
      refine List.pairwise_cons.mpr ⟨?_, insertLe_pairwise ht⟩
      intro y hy
      rcases List.mem_cons.mp ((insertLe_perm a t).mem_iff.mp hy) with rfl | hyt
      · exact hba
      · exact hb y hyt
    · rw [if_neg hba]
      refine List.pairwise_cons.mpr ⟨?_, h⟩
      intro y hy
      rcases List.mem_cons.mp hy with rfl | hyt
      · rcases leDue_total a y with hl | hr
        · exact hl
        · exact absurd hr hba
      · exact leDue_carry (hb y hyt) (by simpa using hba)

theorem sortFold_pairwise : ∀ (l acc : List JSItem),
    acc.Pairwise (fun x y => leDue x y = true) →
    (l.foldl (fun acc a => insertLe a acc) acc).Pairwise (fun x y => leDue x y = true)
  | [], _, h => h
  | x :: t, acc, h => by
    rw [List.foldl_cons]
    exact sortFold_pairwise t (insertLe x acc) (insertLe_pairwise h)

theorem sortByDue_pairwise (l : List JSItem) :
    (sortByDue l).Pairwise (fun x y => leDue x y = true) :=
  sortFold_pairwise l [] List.Pairwise.nil

theorem insertLe_append {a : JSItem} : ∀ {l : List JSItem},
    (∀ b ∈ l, leDue b a = true) → insertLe a l = l ++ [a]
  | [], _ => rfl
  | b :: t, h => by
    unfold insertLe
    rw [if_pos (h b (List.mem_cons_self b t))]
    rw [insertLe_append (fun c hc => h c (List.mem_cons_of_mem b hc))]
    rfl

theorem sortFold_id : ∀ (l acc : List JSItem),
    (acc ++ l).Pairwise (fun x y => leDue x y = true) →
    l.foldl (fun acc a => insertLe a acc) acc = acc ++ l
  | [], acc, _ => by simp
  | x :: t, acc, h => by
    have hx : ∀ b ∈ acc, leDue b x = true := by
      intro b hb
      obtain ⟨_, _, hcross⟩ := List.pairwise_append.mp h
      exact hcross b hb x (List.mem_cons_self x t)
    rw [List.foldl_cons, insertLe_append hx]
    have hre : (acc ++ [x]) ++ t = acc ++ x :: t := by simp
    rw [sortFold_id t (acc ++ [x]) (by rw [hre]; exact h), hre]

theorem sortByDue_id {l : List JSItem}
    (h : l.Pairwise (fun x y => leDue x y = true)) : sortByDue l = l := by
  simpa using sortFold_id l [] (by simpa using h)

/-! ## Claim C1 -/

/-- C1 (amended): the two-digit window (boundary 50) applies when the string
is first parsed, but the ±5-year sanity correction then rewrites the year to
the context year.  So "3/5/24" parses to 2024 whenever the context year is
within 5 of 2024 (which holds for present-day default context years), while
"3/5/87" parses to year 1987 only when the context year is within 5 of 1987;
for any other context year — including every present-day default — the
resulting year is the context year itself. -/
theorem C1_two_digit_year (ctx : Int) :
    ((2024 - ctx).natAbs ≤ 5 → parseDate (.vStr "3/5/24") ctx = .date ⟨2024, 2, 5⟩)
    ∧ ((1987 - ctx).natAbs > 5 → parseDate (.vStr "3/5/87") ctx = .date ⟨ctx, 2, 5⟩)
    ∧ ((1987 - ctx).natAbs ≤ 5 → parseDate (.vStr "3/5/87") ctx = .date ⟨1987, 2, 5⟩) := by
  have h24 : jsNewDateString "3/5/24" = some ⟨2024, 2, 5⟩ := by decide
  have h87 : jsNewDateString "3/5/87" = some ⟨1987, 2, 5⟩ := by decide
  have hml : monthLen ctx 2 = 31 := by unfold monthLen; norm_num
  have hmk : mkDate ctx 2 5 = ⟨ctx, 2, 5⟩ :=
    mkDate_valid (by omega) (by omega) (by omega) (by rw [hml]; omega)
  refine ⟨fun h => ?_, fun h => ?_, fun h => ?_⟩
  · unfold parseDate
    rw [if_neg (show ¬(jsFalsy (JSValue.vStr "3/5/24") = true) by decide)]
    simp only [h24]
    rw [if_neg (show ¬(((⟨2024, 2, 5⟩ : JSDate).year - ctx).natAbs > 5) from by
      show ¬((2024 - ctx).natAbs > 5); omega)]
  · unfold parseDate
    rw [if_neg (show ¬(jsFalsy (JSValue.vStr "3/5/87") = true) by decide)]
    simp only [h87]
    rw [if_pos (show ((⟨1987, 2, 5⟩ : JSDate).year - ctx).natAbs > 5 from by
      show (1987 - ctx).natAbs > 5; omega)]
    show DateRes.date (mkDate ctx 2 5) = DateRes.date ⟨ctx, 2, 5⟩
    rw [hmk]
  · unfold parseDate
    rw [if_neg (show ¬(jsFalsy (JSValue.vStr "3/5/87") = true) by decide)]
    simp only [h87]
    rw [if_neg (show ¬(((⟨1987, 2, 5⟩ : JSDate).year - ctx).natAbs > 5) from by
      show ¬((1987 - ctx).natAbs > 5); omega)]

/-- C1 witness: the amended statement at context years 2024, 2025 and 1990. -/
theorem C1_two_digit_year_witness :
    parseDate (.vStr "3/5/24") 2024 = .date ⟨2024, 2, 5⟩
    ∧ parseDate (.vStr "3/5/87") 2025 = .date ⟨2025, 2, 5⟩
    ∧ parseDate (.vStr "3/5/87") 1990 = .date ⟨1987, 2, 5⟩ :=
  ⟨(C1_two_digit_year 2024).1 (by decide),
   (C1_two_digit_year 2025).2.1 (by decide),
   (C1_two_digit_year 1990).2.2 (by decide)⟩

/-- C1 counterexample: with the present-day default context year (2025),
"3/5/87" parses to year 2025, not 1987 as the claim states. -/
theorem C1_two_digit_year_counterexample :
    parseDate (.vStr "3/5/87") 2025 = .date ⟨2025, 2, 5⟩ ∧ (2025 : Int) ≠ 1987 := by
  exact ⟨by decide, by decide⟩

/-! ## Claim C2 -/

/-- C2 (amended): for a canonical `M/D/YYYY` string denoting a valid
calendar date, the format-parse round trip is the identity PROVIDED the
context year is within 5 years of the string's year; the sanity correction
breaks the round trip for any farther context year. -/
theorem C2_date_round_trip (m d y ctx : Int) (hm1 : 1 ≤ m) (hm : m ≤ 12)
    (hd1 : 1 ≤ d) (hd : d ≤ monthLen y (m - 1)) (hy1 : 1000 ≤ y) (_hy2 : y ≤ 9999)
    (hctx : (y - ctx).natAbs ≤ 5) :
    formatDate (resToValue (parseDate (.vStr (renderMDY m d y)) ctx)) ctx
      = renderMDY m d y := by
  rw [parseDate_render hm1 hm hd1 hd hy1 hctx]
  show fmtTriple ⟨y, m - 1, d⟩ = renderMDY m d y
  unfold fmtTriple renderMDY
  show String.mk (jsIntChars (m - 1 + 1) ++ '/' :: (jsIntChars d ++ '/' :: jsIntChars y))
      = String.mk (jsIntChars m ++ '/' :: (jsIntChars d ++ '/' :: jsIntChars y))
  rw [show m - 1 + 1 = m from by ring]

/-- C2 witness: the round trip at "3/5/2024" with context year 2024. -/
theorem C2_date_round_trip_witness :
    formatDate (resToValue (parseDate (.vStr (renderMDY 3 5 2024)) 2024)) 2024
      = renderMDY 3 5 2024 :=
  C2_date_round_trip 3 5 2024 2024 (by decide) (by decide) (by decide) (by decide)
    (by decide) (by decide) (by decide)

/-- C2 counterexample: with context year 2035, parsing "3/5/2024" and
formatting the result yields "3/5/2035", so the round trip fails for that
context year, refuting the claim's "for every context year". -/
theorem C2_date_round_trip_counterexample :
    formatDate (resToValue (parseDate (.vStr "3/5/2024") 2035)) 2035 = "3/5/2035"
    ∧ ("3/5/2035" : String) ≠ "3/5/2024" := by
  exact ⟨by decide, by decide⟩

/-! ## Claim C3 -/

/-- C3: `isDateInPast` on a date object returns true exactly when the
date's day count is strictly below today's (the same-day short circuit
coincides with this comparison); in particular today itself is not past and
the day before today is past. -/
theorem C3_past_due_boundary (d e today : JSDate)
    (he : daysFromCivil e = daysFromCivil today - 1) :
    (isDateInPast (.vDate d) today
        = decide (daysFromCivil d < daysFromCivil today))
    ∧ isDateInPast (.vDate today) today = false
    ∧ isDateInPast (.vDate e) today = true := by
  have key : ∀ x : JSDate, isDateInPast (.vDate x) today
      = decide (daysFromCivil x < daysFromCivil today) := by
    intro x
    unfold isDateInPast
    rw [if_neg (show ¬(jsFalsy (JSValue.vDate x) = true) by simp [jsFalsy])]
    show (if x.day == today.day && x.month == today.month && x.year == today.year
        then false else decide (daysFromCivil x < daysFromCivil today)) = _
    by_cases hc : (x.day == today.day && x.month == today.month
        && x.year == today.year) = true
    · rw [if_pos hc]
      simp only [Bool.and_eq_true, beq_iff_eq] at hc
      have hx : x = today := by
        cases x; cases today
        simp_all
      rw [hx]
      simp
    · rw [if_neg hc]
  refine ⟨key d, ?_, ?_⟩
  · rw [key today]
    simp
  · rw [key e]
    simp only [he, decide_eq_true_eq]
    omega

/-- C3 witness: today = Oct 11 2025, with Jan 1 2024 and Oct 10 2025. -/
theorem C3_past_due_boundary_witness :
    (isDateInPast (.vDate ⟨2024, 0, 1⟩) ⟨2025, 9, 11⟩
        = decide (daysFromCivil ⟨2024, 0, 1⟩ < daysFromCivil ⟨2025, 9, 11⟩))
    ∧ isDateInPast (.vDate ⟨2025, 9, 11⟩) ⟨2025, 9, 11⟩ = false
    ∧ isDateInPast (.vDate ⟨2025, 9, 10⟩) ⟨2025, 9, 11⟩ = true :=
  C3_past_due_boundary ⟨2024, 0, 1⟩ ⟨2025, 9, 10⟩ ⟨2025, 9, 11⟩ (by decide)

/-! ## Claim C10 -/

/-- C10: `isDateInPast` is total and returns false on `null`, on any string
the date normalizer cannot parse, and on an `Invalid Date` object — an
unparseable due date is never classified as past. -/
theorem C10_unparseable_not_past (today : JSDate) :
    isDateInPast .vNull today = false
    ∧ (∀ s : String, parseDate (.vStr s) today.year = .null →
        isDateInPast (.vStr s) today = false)
    ∧ isDateInPast .vInvalid today = false := by
  refine ⟨rfl, ?_, rfl⟩
  intro s hs
  unfold isDateInPast
  by_cases hf : jsFalsy (.vStr s) = true
  · rw [if_pos hf]
  · rw [if_neg hf, hs]

/-- C10 witness: at today = Oct 11 2025 with the unparseable string "hello". -/
theorem C10_unparseable_not_past_witness :
    isDateInPast .vNull ⟨2025, 9, 11⟩ = false
    ∧ isDateInPast (.vStr "hello") ⟨2025, 9, 11⟩ = false
    ∧ isDateInPast .vInvalid ⟨2025, 9, 11⟩ = false :=
  ⟨(C10_unparseable_not_past ⟨2025, 9, 11⟩).1,
   (C10_unparseable_not_past ⟨2025, 9, 11⟩).2.1 "hello" (by decide),
   (C10_unparseable_not_past ⟨2025, 9, 11⟩).2.2⟩

/-! ## Claim C4 -/

/-- C4 (amended): deduplication keys records by the hyphen-joined string
`title-dueDate-course`, not by the tuple: records with identical
(title, dueDate, course) collapse to one, the first occurrence of each key
(in insertion order) is the one kept and order is preserved — but two
records whose hyphen-joins coincide also collapse even when their tuples
differ. -/
theorem C4_dedup_identity_key (l : List JSItem) :
    (removeDuplicateAssignments l).Sublist l
    ∧ ((removeDuplicateAssignments l).map dedupKey).Nodup
    ∧ ∀ a ∈ l, (removeDuplicateAssignments l).find? (fun b => dedupKey b == dedupKey a)
        = l.find? (fun b => dedupKey b == dedupKey a) :=
  ⟨removeDupAux_sublist [] l, (removeDupAux_keys l []).1,
   fun a _ => removeDupAux_find (dedupKey a) l [] rfl⟩

/-- C4 witness: the amended statement evaluated on a two-record list. -/
theorem C4_dedup_identity_key_witness :
    (removeDuplicateAssignments [collideA, collideB]).Sublist [collideA, collideB]
    ∧ ((removeDuplicateAssignments [collideA, collideB]).map dedupKey).Nodup
    ∧ (removeDuplicateAssignments [collideA, collideB]).find?
        (fun b => dedupKey b == dedupKey collideA)
      = [collideA, collideB].find? (fun b => dedupKey b == dedupKey collideA) :=
  ⟨(C4_dedup_identity_key [collideA, collideB]).1,
   (C4_dedup_identity_key [collideA, collideB]).2.1,
   (C4_dedup_identity_key [collideA, collideB]).2.2 collideA (by decide)⟩

/-- C4 counterexample: two records with DIFFERENT (title, dueDate, course)
tuples — ("a-b","c","x") and ("a","b-c","x") — collapse to one because
their hyphen-joined keys coincide, so deduplication is not keyed by the
tuple as the claim states. -/
theorem C4_dedup_identity_key_counterexample :
    removeDuplicateAssignments [collideA, collideB] = [collideA]
    ∧ (collideA.title, collideA.dueDate, collideA.course)
        ≠ (collideB.title, collideB.dueDate, collideB.course) :=
  ⟨by decide, by decide⟩

/-! ## Claim C5 -/

/-- C5: the finalization step (deduplicate by key, then stable-sort
ascending by parsed due date, with invalid dates comparing equal) is
idempotent. -/
theorem C5_finalize_idempotent (l : List JSItem) :
    finalize (finalize l) = finalize l := by
  unfold finalize
  have hml : ((removeDuplicateAssignments l).map dedupKey).Nodup :=
    (removeDupAux_keys l []).1
  have hperm : (sortByDue (removeDuplicateAssignments l)).Perm
      (removeDuplicateAssignments l) := sortByDue_perm _
  have hsk : ((sortByDue (removeDuplicateAssignments l)).map dedupKey).Nodup :=
    ((hperm.map dedupKey).nodup_iff).mpr hml
  have hdd : removeDuplicateAssignments (sortByDue (removeDuplicateAssignments l))
      = sortByDue (removeDuplicateAssignments l) :=
    removeDupAux_id _ [] hsk (fun b _ => rfl)
  rw [hdd, sortByDue_id (sortByDue_pairwise _)]

/-! ## Claim C9 -/

/-- C9 (amended): every record in the output of the processing pipeline's
finalization is an object free of the workbook-shape fields `SheetNames`,
`Sheets` and `Workbook` (the no-leakage half of the claim); the
title/dueDate half fails — the pipeline's inline filter does not check
them (`validateAssignments`, which does, is never invoked there). -/
theorem C9_no_leakage (l : List JSItem) (r : JSItem)
    (hr : r ∈ processFilesTail l) :
    r.isObj = true ∧ r.hasSheetNames = false ∧ r.hasSheets = false
    ∧ r.hasWorkbook = false := by
  unfold processFilesTail at hr
  have h1 : r ∈ removeDuplicateAssignments (l.filter cleanFilter) :=
    (sortByDue_perm _).mem_iff.mp hr
  have h2 : r ∈ l.filter cleanFilter :=
    (removeDupAux_sublist [] _).subset h1
  have h3 := (List.mem_filter.mp h2).2
  unfold cleanFilter at h3
  simp only [Bool.and_eq_true, Bool.not_eq_true'] at h3
  obtain ⟨ho, hw⟩ := h3
  simp only [Bool.or_eq_false_iff] at hw
  exact ⟨ho, hw.1.1, hw.1.2, hw.2⟩

/-- C9 witness: a record that survives the pipeline, checked against the
no-leakage properties. -/
theorem C9_no_leakage_witness :
    emptyTitleRec.isObj = true ∧ emptyTitleRec.hasSheetNames = false
    ∧ emptyTitleRec.hasSheets = false ∧ emptyTitleRec.hasWorkbook = false :=
  C9_no_leakage [emptyTitleRec] emptyTitleRec (by decide)

/-- C9 counterexample: a candidate with empty title and empty dueDate flows
through finalization untouched, refuting the claim's non-empty-title/dueDate
half. -/
theorem C9_no_leakage_counterexample :
    processFilesTail [emptyTitleRec] = [emptyTitleRec]
    ∧ emptyTitleRec.title = "" ∧ emptyTitleRec.dueDate = "" :=
  ⟨by decide, rfl, rfl⟩

/-! ## Claim C6 -/

/-- C6 (amended): both homework parsers use an explicit "due by" date when
the cell has one; otherwise the revision at lines 369-397 adds 14 days (not
7) to the row date, while the revision at lines 928-978 first takes any
embedded `M/D[/Y]` date, then returns the current date when the row date is
not in the future, and only otherwise the row date plus 7 days. -/
theorem C6_homework_due_dates (s : String) (rd : JSDate) (sy : Int)
    (today : JSDate) (rdo : Option JSDate) :
    (∀ t, s.data ≠ [] → findDueBy s.data = some t →
        parseHomeworkDueDate_v1 s rdo sy = some (matchDate t sy)
        ∧ parseHomeworkDueDate_v2 s rdo sy today = some (matchDate t sy))
    ∧ (s.data ≠ [] → findDueBy s.data = none →
        parseHomeworkDueDate_v1 s (some rd) sy
          = some (mkDate rd.year rd.month (rd.day + 14)))
    ∧ (∀ t2, s.data ≠ [] → findDueBy s.data = none →
        scan1 pMDoptY24 s.data = some t2 →
        parseHomeworkDueDate_v2 s (some rd) sy today = some (matchDate t2 sy))
    ∧ (s.data ≠ [] → findDueBy s.data = none → scan1 pMDoptY24 s.data = none →
        parseHomeworkDueDate_v2 s (some rd) sy today
          = if daysFromCivil rd ≤ daysFromCivil today then some today
            else some (mkDate rd.year rd.month (rd.day + 7))) := by
  refine ⟨fun t hne hf => ⟨?_, ?_⟩, fun hne hf => ?_, fun t2 hne hf hsc => ?_,
    fun hne hf hsc => ?_⟩
  · unfold parseHomeworkDueDate_v1
    rw [if_neg (show ¬(s.data.isEmpty = true) by
      rw [isEmpty_false_of_ne_nil hne]; simp)]
    rw [show dueByDate s sy = some (matchDate t sy) from by
      unfold dueByDate; rw [hf]; rfl]
  · unfold parseHomeworkDueDate_v2
    rw [if_neg (show ¬(s.data.isEmpty = true) by
      rw [isEmpty_false_of_ne_nil hne]; simp)]
    rw [show dueByDate s sy = some (matchDate t sy) from by
      unfold dueByDate; rw [hf]; rfl]
  · unfold parseHomeworkDueDate_v1
    rw [if_neg (show ¬(s.data.isEmpty = true) by
      rw [isEmpty_false_of_ne_nil hne]; simp)]
    rw [show dueByDate s sy = none from by unfold dueByDate; rw [hf]; rfl]
  · unfold parseHomeworkDueDate_v2
    rw [if_neg (show ¬(s.data.isEmpty = true) by
      rw [isEmpty_false_of_ne_nil hne]; simp)]
    rw [show dueByDate s sy = none from by unfold dueByDate; rw [hf]; rfl]
    rw [hsc]
  · unfold parseHomeworkDueDate_v2
    rw [if_neg (show ¬(s.data.isEmpty = true) by
      rw [isEmpty_false_of_ne_nil hne]; simp)]
    rw [show dueByDate s sy = none from by unfold dueByDate; rw [hf]; rfl]
    rw [hsc]

/-- C6 witness: the amended statement at concrete homework cells, a row
date of Mar 10 2025 and today = Oct 11 2025. -/
theorem C6_homework_due_dates_witness :
    (parseHomeworkDueDate_v1 "HW 2 due by 3/17/2025" (some ⟨2025, 2, 10⟩) 2025
        = some (matchDate (3, 17, some 2025) 2025)
      ∧ parseHomeworkDueDate_v2 "HW 2 due by 3/17/2025" (some ⟨2025, 2, 10⟩) 2025
          ⟨2025, 9, 11⟩ = some (matchDate (3, 17, some 2025) 2025))
    ∧ parseHomeworkDueDate_v1 "HW 1" (some ⟨2025, 2, 10⟩) 2025
        = some (mkDate 2025 2 (10 + 14))
    ∧ parseHomeworkDueDate_v2 "HW 3 (3/10)" (some ⟨2025, 2, 10⟩) 2025 ⟨2025, 9, 11⟩
        = some (matchDate (3, 10, none) 2025)
    ∧ parseHomeworkDueDate_v2 "HW 1" (some ⟨2025, 2, 10⟩) 2025 ⟨2025, 9, 11⟩
        = if daysFromCivil ⟨2025, 2, 10⟩ ≤ daysFromCivil ⟨2025, 9, 11⟩
          then some ⟨2025, 9, 11⟩ else some (mkDate 2025 2 (10 + 7)) :=
  ⟨(C6_homework_due_dates "HW 2 due by 3/17/2025" ⟨2025, 2, 10⟩ 2025 ⟨2025, 9, 11⟩
      (some ⟨2025, 2, 10⟩)).1 (3, 17, some 2025) (by decide) (by decide),
   (C6_homework_due_dates "HW 1" ⟨2025, 2, 10⟩ 2025 ⟨2025, 9, 11⟩
      (some ⟨2025, 2, 10⟩)).2.1 (by decide) (by decide),
   (C6_homework_due_dates "HW 3 (3/10)" ⟨2025, 2, 10⟩ 2025 ⟨2025, 9, 11⟩
      (some ⟨2025, 2, 10⟩)).2.2.1 (3, 10, none) (by decide) (by decide) (by decide),
   (C6_homework_due_dates "HW 1" ⟨2025, 2, 10⟩ 2025 ⟨2025, 9, 11⟩
      (some ⟨2025, 2, 10⟩)).2.2.2 (by decide) (by decide) (by decide)⟩

/-- C6 counterexample: a homework cell with no explicit date and row date
Mar 10 2025 gets due date Mar 24 (row date + 14 days), not Mar 17 (row date
+ 7 days) as the claim states. -/
theorem C6_homework_due_dates_counterexample :
    parseHomeworkDueDate_v1 "HW 1" (some ⟨2025, 2, 10⟩) 2025 = some ⟨2025, 2, 24⟩
    ∧ mkDate 2025 2 (10 + 7) = ⟨2025, 2, 17⟩
    ∧ (⟨2025, 2, 24⟩ : JSDate) ≠ ⟨2025, 2, 17⟩ := by
  exact ⟨by decide, by decide, by decide⟩

/-! ## Claim C7 -/

/-- C7: `parseExamDate` returns null for any cell mentioning review, buffer
or opens without due or closes, whatever else the cell contains; and for an
exam cell it does not skip (with a row date present), the resulting due
date is the explicit date embedded in the cell when there is one, else the
row date. -/
theorem C7_exam_skip_and_date (s : String) (rd : JSDate) (sy : Int)
    (rdo : Option JSDate) :
    ((testCI s.data ['r','e','v','i','e','w'] || testCI s.data ['b','u','f','f','e','r']
        || testCI s.data ['o','p','e','n','s']) = true →
      (testCI s.data ['d','u','e'] || testCI s.data ['c','l','o','s','e','s']) = false →
      parseExamDate s rdo sy = none)
    ∧ (∀ r : ExamRes, parseExamDate s (some rd) sy = some r →
        r.date = (examExplicitDate s sy).getD rd) := by
  constructor
  · intro h1 h2
    by_cases hs : s.data = []
    · rw [hs] at h1
      exact absurd h1 (by decide)
    · unfold parseExamDate
      rw [if_neg (show ¬(s.data.isEmpty = true) by
        rw [isEmpty_false_of_ne_nil hs]; simp)]
      rw [if_pos (show _ = true by rw [h1, h2]; rfl)]
  · intro r hr
    by_cases hs : s.data.isEmpty = true
    · unfold parseExamDate at hr
      rw [if_pos hs] at hr
      cases hr
    · by_cases hskip : ((testCI s.data ['r','e','v','i','e','w']
          || testCI s.data ['b','u','f','f','e','r']
          || testCI s.data ['o','p','e','n','s']) &&
          !(testCI s.data ['d','u','e'] || testCI s.data ['c','l','o','s','e','s'])) = true
      · unfold parseExamDate at hr
        rw [if_neg hs, if_pos hskip] at hr
        cases hr
      · by_cases hm : testCI s.data ['m','i','d','t','e','r','m'] = true
        · have hval : parseExamDate s (some rd) sy
              = some ⟨(examExplicitDate s sy).getD rd, "Midterm Exam"⟩ := by
            unfold parseExamDate
            rw [if_neg hs, if_neg hskip, if_pos hm]
            rcases examExplicitDate s sy with _ | e
            · rfl
            · rfl
          rw [hval] at hr
          injection hr with hrr
          rw [← hrr]
        · by_cases hf : testCI s.data ['f','i','n','a','l'] = true
          · have hval : parseExamDate s (some rd) sy
                = some ⟨(examExplicitDate s sy).getD rd, "Final Exam"⟩ := by
              unfold parseExamDate
              rw [if_neg hs, if_neg hskip, if_neg hm, if_pos hf]
              rcases examExplicitDate s sy with _ | e
              · rfl
              · rfl
            rw [hval] at hr
            injection hr with hrr
            rw [← hrr]
          · by_cases hx : testCI s.data ['e','x','a','m'] = true
            · have hval : parseExamDate s (some rd) sy
                  = some ⟨(examExplicitDate s sy).getD rd, "Exam"⟩ := by
                unfold parseExamDate
                rw [if_neg hs, if_neg hskip, if_neg hm, if_neg hf, if_pos hx]
                rcases examExplicitDate s sy with _ | e
                · rfl
                · rfl
              rw [hval] at hr
              injection hr with hrr
              rw [← hrr]
            · have hval : parseExamDate s (some rd) sy = none := by
                unfold parseExamDate
                rw [if_neg hs, if_neg hskip, if_neg hm, if_neg hf, if_neg hx]
              rw [hval] at hr
              cases hr

/-- C7 witness: a review-only exam cell is skipped; "Final Exam 12/15/2025"
gets its embedded date. -/
theorem C7_exam_skip_and_date_witness :
    parseExamDate "Exam review" (some ⟨2025, 2, 10⟩) 2025 = none
    ∧ (⟨⟨2025, 11, 15⟩, "Final Exam"⟩ : ExamRes).date
        = (examExplicitDate "Final Exam 12/15/2025" 2025).getD ⟨2025, 2, 10⟩ :=
  ⟨(C7_exam_skip_and_date "Exam review" ⟨2025, 2, 10⟩ 2025 (some ⟨2025, 2, 10⟩)).1
      (by decide) (by decide),
   (C7_exam_skip_and_date "Final Exam 12/15/2025" ⟨2025, 2, 10⟩ 2025
      (some ⟨2025, 2, 10⟩)).2 ⟨⟨2025, 11, 15⟩, "Final Exam"⟩ (by decide)⟩

/-! ## Claim C8 -/

/-- C8 (code bug): the second revision of `parseProjectDueDate` pipes the
matched year string through `parseFilePath` — a filename parser returning
an object — so `parseInt` of it is `NaN` and a project cell carrying an
explicit full date yields an `Invalid Date` instead of that date; the first
revision returns null (not the row date) when no strategy fires, and the
second treats a year-less `M/D` as its first strategy.  The evaluations
below exhibit all three divergences from the claim. -/
theorem C8_project_divergences :
    parseProjectDueDate_v2 "Project due 10/15/2024" (some ⟨2024, 8, 1⟩) 2024
      = .invalid
    ∧ parseProjectDueDate_v1 "Project work" (some ⟨2024, 8, 1⟩) 2024 = none
    ∧ parseProjectDueDate_v2 "Project report 3/5" (some ⟨2024, 8, 1⟩) 2024
        = .date ⟨2024, 2, 5⟩ := by
  exact ⟨by decide, by decide, by decide⟩
